import Mathlib

/-!
Verification of the descriptor-synthesis and multi-metric matching engine
implemented in `src/services/FaceRecognitionService.js` (Android code path).

Conventions of the shallow embedding:
* JavaScript numbers used as 32-bit accumulators (`& 0xffffffff`, `& 0x7fffffff`)
  are modelled as natural-number residues (`% 2^32`, `% 2^31`); the congruence
  is exact for every operation in the source (multiplications whose products
  could exceed 2^53 in IEEE doubles are idealized to exact integer arithmetic).
* JavaScript floating-point values (descriptor components, distances, scores)
  are modelled as real numbers.
* Strings produced with `toFixed(3)` (confidence, bestScore, details) are
  modelled by the real value being formatted.
* `async` file-system calls are modelled by passing their results (file
  existence, size, base64 character codes, directory listing) as parameters.
* Thrown JavaScript exceptions are modelled with `Except String`.
-/

namespace FaceRec

/-- Character codes of the base64 string returned by `readAsStringAsync`. -/
abbrev ByteData := List Nat

/-- Result of `FileSystem.getInfoAsync`: the `exists` flag (named `fexists`
here because `exists` is reserved in Lean) and the byte `size`. -/
structure FileInfo where
  fexists : Bool
  size : Nat

/-- The three 32-bit mixing accumulators `(hash1, hash2, hash3)`. -/
abbrev HashState := Nat × Nat × Nat

/-- One iteration of the inner byte loop of `extractFaceDescriptor`
(lines 425-430 of the source):
`hash1 = ((hash1 << 5) - hash1 + char) & 0xffffffff`,
`hash2 = ((hash2 * 31) + char) & 0xffffffff`,
`hash3 = ((hash3 ^ char) * 16777619) & 0xffffffff`. -/
def hashStep (acc : HashState) (c : Nat) : HashState :=
  ((acc.1 * 32 - acc.1 + c) % 4294967296,
   (acc.2.1 * 31 + c) % 4294967296,
   (Nat.xor acc.2.2 c * 16777619) % 4294967296)

/-- `chunkSize = Math.floor(imageData.length / 32)` (line 420). -/
def chunkSize (len : Nat) : Nat := len / 32

/-- The indices of `imageData` visited by the double chunk loop
(lines 421-431): for `chunk` in `0..31`, `i` runs from `chunk * chunkSize`
to `min(chunk * chunkSize + chunkSize, len)` (exclusive). -/
def processedIndices (len : Nat) : List Nat :=
  (List.range 32).flatMap (fun chunk =>
    (List.range (min (chunk * chunkSize len + chunkSize len) len - chunk * chunkSize len)).map
      (fun j => chunk * chunkSize len + j))

/-- The chunked hashing phase of `extractFaceDescriptor` (lines 414-431):
seeds `hash1 = fileInfo.size`, `hash2 = imagePath.length`, `hash3 = 0`,
then folds `hashStep` over the bytes selected by the chunk loop. -/
def chunkHashes (size : Nat) (pathLen : Nat) (data : ByteData) : HashState :=
  (processedIndices data.length).foldl (fun acc i => hashStep acc (data.getD i 0))
    (size % 4294967296, pathLen % 4294967296, 0)

/-- `hash1 = ((hash1 * 1103515245) + 12345) & 0x7fffffff` (line 436). -/
def lcg1 (h : Nat) : Nat := (h * 1103515245 + 12345) % 2147483648

/-- `hash2 = ((hash2 * 1664525) + 1013904223) & 0x7fffffff` (line 439). -/
def lcg2 (h : Nat) : Nat := (h * 1664525 + 1013904223) % 2147483648

/-- `hash3 = ((hash3 * 134775813) + 1) & 0x7fffffff` (line 442). -/
def lcg3 (h : Nat) : Nat := (h * 134775813 + 1) % 2147483648

/-- `descriptor[i] = (hash / 0x7fffffff) * 2 - 1` (lines 437, 440, 443). -/
noncomputable def toComponent (h : Nat) : ℝ := ((h : ℝ) / 2147483647) * 2 - 1

/-- The descriptor-filling loop (lines 434-445): `n` components remain,
`i` is the current index, and the accumulator advanced at step `i` is
selected by `i % 3`. -/
noncomputable def fillDescriptor : Nat → Nat → HashState → List ℝ
  | 0, _, _ => []
  | n + 1, i, st =>
    if i % 3 = 0 then
      toComponent (lcg1 st.1) :: fillDescriptor n (i + 1) (lcg1 st.1, st.2.1, st.2.2)
    else if i % 3 = 1 then
      toComponent (lcg2 st.2.1) :: fillDescriptor n (i + 1) (st.1, lcg2 st.2.1, st.2.2)
    else
      toComponent (lcg3 st.2.2) :: fillDescriptor n (i + 1) (st.1, st.2.1, lcg3 st.2.2)

/-- The final normalization step (lines 447-458): divide every component by
the Euclidean norm unless the norm is zero. -/
noncomputable def normalizeDescriptor (d : List ℝ) : List ℝ :=
  let magnitude := Real.sqrt ((d.map (fun x => x * x)).sum)
  if magnitude > 0 then d.map (fun x => x / magnitude) else d

/-- The full descriptor computation for a readable, large-enough file
(lines 406-460). -/
noncomputable def buildDescriptor (imagePath : String) (size : Nat) (data : ByteData) :
    List ℝ :=
  normalizeDescriptor (fillDescriptor 128 0 (chunkHashes size imagePath.length data))

/-- `extractFaceDescriptor` for the Android path (lines 393-464): `null`
(here `none`) when the file does not exist or `size < 1024`, otherwise
the 128-component normalized descriptor. -/
noncomputable def extractFaceDescriptor (imagePath : String) (info : FileInfo)
    (imageData : ByteData) : Option (List ℝ) :=
  if info.fexists = false then none
  else if info.size < 1024 then none
  else some (buildDescriptor imagePath info.size imageData)

/-- `calculateDistance` (lines 573-586): Euclidean distance, throwing on a
length mismatch. -/
noncomputable def calculateDistance (d1 d2 : List ℝ) : Except String ℝ :=
  if d1.length ≠ d2.length then Except.error "Descriptor lengths do not match"
  else Except.ok (Real.sqrt ((List.zipWith (fun a b => (a - b) * (a - b)) d1 d2).sum))

/-- `calculateCosineSimilarity` (lines 588-606): dot product over the product
of the two norms, with the `magnitude === 0` guard returning 0. -/
noncomputable def calculateCosineSimilarity (d1 d2 : List ℝ) : Except String ℝ :=
  if d1.length ≠ d2.length then Except.error "Descriptor lengths do not match"
  else
    let dotProduct := (List.zipWith (fun a b => a * b) d1 d2).sum
    let norm1 := (d1.map (fun x => x * x)).sum
    let norm2 := (d2.map (fun x => x * x)).sum
    let magnitude := Real.sqrt norm1 * Real.sqrt norm2
    Except.ok (if magnitude = 0 then 0 else dotProduct / magnitude)

/-- `calculateManhattanDistance` (lines 608-620). -/
noncomputable def calculateManhattanDistance (d1 d2 : List ℝ) : Except String ℝ :=
  if d1.length ≠ d2.length then Except.error "Descriptor lengths do not match"
  else Except.ok ((List.zipWith (fun a b => |a - b|) d1 d2).sum)

/-- One element of the `results` array built in `matchFace` (lines 520-526). -/
structure ScoreEntry where
  filename : String
  score : ℝ
  euclideanDist : ℝ
  cosineSim : ℝ
  manhattanDist : ℝ

/-- The loop body of `matchFace` for one database entry (lines 499-527):
the three metrics, the two normalizations
`max(0, 1 - euclidean/2)` and `max(0, 1 - manhattan/256)`, and the combined
score `normalizedEuclidean * 0.4 + cosineSim * 0.4 + normalizedManhattan * 0.2`. -/
noncomputable def scoreCandidate (input : List ℝ) (filename : String)
    (dbDescriptor : List ℝ) : Except String ScoreEntry := do
  let euclideanDist ← calculateDistance input dbDescriptor
  let cosineSim ← calculateCosineSimilarity input dbDescriptor
  let manhattanDist ← calculateManhattanDistance input dbDescriptor
  let normalizedEuclidean := max 0 (1 - euclideanDist / 2)
  let normalizedManhattan := max 0 (1 - manhattanDist / 256)
  Except.ok ⟨filename,
    normalizedEuclidean * 0.4 + cosineSim * 0.4 + normalizedManhattan * 0.2,
    euclideanDist, cosineSim, manhattanDist⟩

/-- The result object returned by `matchFace`; absent JSON fields are `none`
(`requiresVerification` absent is `false`). `matchKind` is the JSON field
named `match` (reserved in Lean). -/
structure MatchResult where
  matchKind : String
  filename : Option String
  confidence : Option ℝ
  algorithm : Option String
  details : Option (ℝ × ℝ × ℝ)
  requiresVerification : Bool
  bestScore : Option ℝ
  error : Option String

/-- The high-confidence return object (lines 539-550). -/
def matchedResult (b : ScoreEntry) : MatchResult :=
  ⟨"yes", some b.filename, some b.score, some "multi-metric",
    some (b.euclideanDist, b.cosineSim, b.manhattanDist), false, none, none⟩

/-- The medium-confidence return object (lines 552-559). -/
def possibleResult (b : ScoreEntry) : MatchResult :=
  ⟨"possible", some b.filename, some b.score, some "multi-metric", none, true, none, none⟩

/-- The no-match return object (lines 560-565); `s` is `bestScore`
(`0` standing for the `'0.000'` default). -/
def unmatchedResult (s : ℝ) : MatchResult :=
  ⟨"no", none, none, none, none, false, some s, none⟩

/-- The extraction-failure return object (line 493). -/
def noFaceResult : MatchResult :=
  ⟨"no", none, none, none, none, false, none, some "No face detected in input image"⟩

/-- The comparator of `results.sort((a, b) => b.score - a.score)` (line 530)
as a Bool-valued `le`: `a` may precede `b` when `b.score ≤ a.score`.
JavaScript's sort is stable, modelled by the stable `List.mergeSort`. -/
noncomputable def scoreLE (a b : ScoreEntry) : Bool := decide (b.score ≤ a.score)

/-- The scoring, sorting and classification phase of `matchFace`
(lines 497-565): every database entry is scored, the results are sorted by
descending combined score, and the head (`bestMatch = results[0]`) is
classified against `highConfidenceThreshold = 0.85` and
`minimumConfidenceThreshold = 0.75`. The database list carries the `Map`
iteration (insertion) order of `this.faceDatabase`. -/
noncomputable def matchDescriptor (db : List (String × List ℝ))
    (inputDescriptor : List ℝ) : Except String MatchResult := do
  let results ← db.mapM (fun p => scoreCandidate inputDescriptor p.1 p.2)
  match (results.mergeSort scoreLE).head? with
  | some bestMatch =>
    if bestMatch.score ≥ 0.85 then Except.ok (matchedResult bestMatch)
    else if bestMatch.score ≥ 0.75 then Except.ok (possibleResult bestMatch)
    else Except.ok (unmatchedResult bestMatch.score)
  | none => Except.ok (unmatchedResult 0)

/-- `matchFace` for the Android path (lines 467-571): the missing-file check
(lines 485-488) throws; extraction failure returns the `noFaceResult` object
(line 493); otherwise the scoring and classification phase runs. -/
noncomputable def matchFace (db : List (String × List ℝ)) (imagePath : String)
    (info : FileInfo) (imageData : ByteData) : Except String MatchResult :=
  if info.fexists = false then
    Except.error ("Image file not found: " ++ imagePath)
  else
    match extractFaceDescriptor imagePath info imageData with
    | none => Except.ok noFaceResult
    | some inputDescriptor => matchDescriptor db inputDescriptor

/-- The image-name filter `/\.(jpg|jpeg|png|bmp)$/i` (lines 340-342). -/
def isImageFile (name : String) : Bool :=
  (name.toLower.endsWith ".jpg" || name.toLower.endsWith ".jpeg" ||
   name.toLower.endsWith ".png" || name.toLower.endsWith ".bmp")

/-- The `FaceDB` directory prefix prepended to file names (line 352);
the platform document-directory prefix is irrelevant to the engine
(only the resulting path length feeds the hash seed). -/
def faceDbPath : String := "FaceDB/"

/-- `loadFaceDatabase` (lines 322-369, Android path) as a state transformer:
given the prior in-memory store, the directory-existence flag, the outcome of
`readDirectoryAsync`, and the per-file info/content collaborators, it returns
the store contents after the call together with the returned count or the
re-thrown error. The store is cleared only after a successful listing
(line 347); per-file extraction failures are caught and skipped
(lines 350-361). -/
noncomputable def loadFaceDatabase (prior : List (String × List ℝ)) (dirExists : Bool)
    (listing : Except String (List String)) (getInfo : String → FileInfo)
    (readData : String → ByteData) : List (String × List ℝ) × Except String Nat :=
  if dirExists = false then (prior, Except.ok 0)
  else
    match listing with
    | Except.error e => (prior, Except.error e)
    | Except.ok files =>
      let imageFiles := files.filter isImageFile
      let newDb := imageFiles.foldl (fun dbAcc file =>
        match extractFaceDescriptor (faceDbPath ++ file) (getInfo file) (readData file) with
        | some descriptor => dbAcc ++ [(file, descriptor)]
        | none => dbAcc) []
      (newDb, Except.ok newDb.length)

/-! Definitions transcribed from the specification's wording, used on the
specification side of refinement claims. -/

/-- Spec §4.3: combined score
`0.4 * max(0, 1 - euclidean/2) + 0.4 * cosine + 0.2 * max(0, 1 - manhattan/256)`. -/
noncomputable def combinedScoreSpec (e c m : ℝ) : ℝ :=
  0.4 * max 0 (1 - e / 2) + 0.4 * c + 0.2 * max 0 (1 - m / 256)

/-- Spec §4.3: Euclidean distance as the standard L2 distance. -/
noncomputable def euclideanSpec (d1 d2 : List ℝ) : ℝ :=
  Real.sqrt ((List.zipWith (fun a b => (a - b) ^ 2) d1 d2).sum)

/-- Spec §4.3: the Euclidean norm of a vector. -/
noncomputable def normSpec (d : List ℝ) : ℝ := Real.sqrt ((d.map (fun x => x ^ 2)).sum)

/-- Spec §4.3: cosine similarity, defined as 0 when either norm is 0. -/
noncomputable def cosineSpec (d1 d2 : List ℝ) : ℝ :=
  if normSpec d1 = 0 ∨ normSpec d2 = 0 then 0
  else (List.zipWith (fun a b => a * b) d1 d2).sum / (normSpec d1 * normSpec d2)

/-- Spec §4.3: Manhattan distance as the sum of absolute componentwise
differences. -/
noncomputable def manhattanSpec (d1 d2 : List ℝ) : ℝ :=
  (List.zipWith (fun a b => |a - b|) d1 d2).sum

/-- Spec §4.4 tie-break, transcribed from its wording: a strictly greater
combined score wins and on exact ties the earliest-enumerated entry is kept. -/
noncomputable def firstMaxSpec : List ScoreEntry → Option ScoreEntry
  | [] => none
  | e :: rest =>
    match firstMaxSpec rest with
    | none => some e
    | some b => if b.score > e.score then some b else some e

/-- Spec §4.2 `rebuild`: the entries whose extraction succeeded, in input
order. -/
noncomputable def successList (files : List String) (getInfo : String → FileInfo)
    (readData : String → ByteData) : List (String × List ℝ) :=
  (files.filter isImageFile).filterMap (fun file =>
    (extractFaceDescriptor (faceDbPath ++ file) (getInfo file) (readData file)).map
      (fun d => (file, d)))

/-! Helper lemmas. -/

/-- Folding the skip-on-failure store insertion equals `filterMap`. -/
lemma foldl_insert_eq_filterMap (g : String → Option (List ℝ)) :
    ∀ (l : List String) (acc : List (String × List ℝ)),
      l.foldl (fun dbAcc file =>
          match g file with
          | some descriptor => dbAcc ++ [(file, descriptor)]
          | none => dbAcc) acc =
        acc ++ l.filterMap (fun file => (g file).map (fun d => (file, d))) := by
  intro l
  induction l with
  | nil => intro acc; simp
  | cons x xs ih =>
    intro acc
    cases hx : g x with
    | none => simp [List.foldl_cons, hx, ih, List.filterMap_cons]
    | some d => simp [List.foldl_cons, hx, ih, List.filterMap_cons]

/-! Claims. -/

/-- Claim C6: `loadFaceDatabase` with a successful listing discards the prior
store entirely, stores exactly the entries whose extraction succeeded (in
listing order, skipping failures), and returns their count. -/
theorem loadFaceDatabase_rebuild (prior : List (String × List ℝ)) (files : List String)
    (getInfo : String → FileInfo) (readData : String → ByteData) :
    loadFaceDatabase prior true (Except.ok files) getInfo readData =
      (successList files getInfo readData,
       Except.ok (successList files getInfo readData).length) := by
  simp only [loadFaceDatabase, successList, Bool.true_eq_false, if_false,
    foldl_insert_eq_filterMap, List.nil_append]

/-- Claim C7 counterexample: when the directory listing fails, the rebuild
attempt re-throws the error instead of reporting zero new entries. -/
theorem loadFaceDatabase_error_counterexample :
    loadFaceDatabase [("x.jpg", [1])] true (Except.error "read failure")
        (fun _ => ⟨true, 2048⟩) (fun _ => []) =
      ([("x.jpg", [1])], Except.error "read failure") ∧
    ∀ n : Nat, (Except.error "read failure" : Except String Nat) ≠ Except.ok n := by
  exact ⟨rfl, fun n h => Except.noConfusion h⟩

/-- Claim C7 (amended): if the directory collaborator fails to enumerate the
reference directory, the store keeps its prior state but the error is
re-thrown (propagated to the caller); only when the directory merely does not
exist does the attempt report zero new entries with the store untouched. -/
theorem loadFaceDatabase_failure_keeps_prior (prior : List (String × List ℝ))
    (e : String) (listing : Except String (List String))
    (getInfo : String → FileInfo) (readData : String → ByteData) :
    loadFaceDatabase prior true (Except.error e) getInfo readData =
      (prior, Except.error e) ∧
    loadFaceDatabase prior false listing getInfo readData = (prior, Except.ok 0) :=
  ⟨rfl, rfl⟩

/-- Claim C4 counterexample: a match query on a missing file is propagated as
a thrown (fatal) error by `matchFace`, not recovered as an unmatched
decision. -/
theorem matchFace_missing_file_counterexample :
    matchFace [] "query.jpg" ⟨false, 4096⟩ [] =
      Except.error "Image file not found: query.jpg" ∧
    ∀ r : MatchResult,
      (Except.error "Image file not found: query.jpg" : Except String MatchResult) ≠
        Except.ok r := by
  exact ⟨rfl, fun r h => Except.noConfusion h⟩

/-- Claim C4 (amended): a match query whose file exists but is smaller than
1024 bytes fails extraction and is recovered locally: `matchFace` returns the
unmatched decision with the explanatory error note, not a thrown error. -/
theorem matchFace_small_file_recovered (db : List (String × List ℝ))
    (imagePath : String) (info : FileInfo) (imageData : ByteData)
    (hex : info.fexists = true) (hsz : info.size < 1024) :
    matchFace db imagePath info imageData = Except.ok noFaceResult := by
  simp [matchFace, extractFaceDescriptor, hex, hsz]

/-- Witness for `matchFace_small_file_recovered` at a concrete 512-byte query. -/
theorem matchFace_small_file_recovered_witness :
    (FileInfo.mk true 512).fexists = true ∧ (FileInfo.mk true 512).size < 1024 ∧
    matchFace [] "q.jpg" ⟨true, 512⟩ [] = Except.ok noFaceResult :=
  ⟨rfl, by decide,
    matchFace_small_file_recovered [] "q.jpg" ⟨true, 512⟩ [] rfl (by decide)⟩

/-- Claim C5: a match against the empty store yields the `"no"` decision with
no candidate identity, for every query whose file exists (regardless of its
size or content). -/
theorem matchFace_empty_store (imagePath : String) (info : FileInfo)
    (imageData : ByteData) (hex : info.fexists = true) :
    Except.map (fun r => (r.matchKind, r.filename))
        (matchFace [] imagePath info imageData) =
      Except.ok ("no", none) := by
  cases h : extractFaceDescriptor imagePath info imageData with
  | none =>
    simp [matchFace, hex, h, noFaceResult, Except.map]
  | some d =>
    have hmd : matchDescriptor [] d = Except.ok (unmatchedResult 0) := by
      have hloop : List.mapM.loop (fun p : String × List ℝ => scoreCandidate d p.1 p.2) [] [] =
          (pure [] : Except String (List ScoreEntry)) := rfl
      simp [matchDescriptor, List.mapM, hloop, pure_bind, List.mergeSort_nil]
    simp [matchFace, hex, h, hmd, unmatchedResult, Except.map]

/-- Witness for `matchFace_empty_store` at a concrete query. -/
theorem matchFace_empty_store_witness :
    (FileInfo.mk true 4096).fexists = true ∧
    Except.map (fun r => (r.matchKind, r.filename))
        (matchFace [] "selfie.jpg" ⟨true, 4096⟩ [65, 66, 67]) =
      Except.ok ("no", none) :=
  ⟨rfl, matchFace_empty_store "selfie.jpg" ⟨true, 4096⟩ [65, 66, 67] rfl⟩

/-- Concatenating the 32 chunk index ranges yields one initial range. -/
lemma range_flatMap_range (m n : Nat) :
    (List.range m).flatMap (fun i => (List.range n).map (fun j => i * n + j)) =
      List.range (m * n) := by
  induction m with
  | zero => simp
  | succ k ih =>
    rw [List.range_succ, List.flatMap_append, ih, Nat.succ_mul, List.range_add]
    simp

/-- The chunk index list is exactly the range of the first `32 * ⌊len/32⌋`
positions. -/
lemma processedIndices_eq_range (len : Nat) :
    processedIndices len = List.range (32 * chunkSize len) := by
  have h32 : 32 * chunkSize len ≤ len := by
    have := Nat.div_mul_le_self len 32
    simpa [chunkSize, Nat.mul_comm] using this
  have hmin : ∀ chunk ∈ List.range 32,
      (List.range (min (chunk * chunkSize len + chunkSize len) len - chunk * chunkSize len)).map
          (fun j => chunk * chunkSize len + j) =
        (List.range (chunkSize len)).map (fun j => chunk * chunkSize len + j) := by
    intro chunk hc
    have hc32 : chunk < 32 := List.mem_range.1 hc
    have hle : chunk * chunkSize len + chunkSize len ≤ len := by
      have h1 : (chunk + 1) * chunkSize len ≤ 32 * chunkSize len :=
        Nat.mul_le_mul_right _ (by omega)
      have h2 : (chunk + 1) * chunkSize len = chunk * chunkSize len + chunkSize len := by ring
      omega
    rw [min_eq_left hle, Nat.add_sub_cancel_left]
  rw [processedIndices, List.flatMap_congr hmin, range_flatMap_range]

/-- Folding over looked-up indices `0..n` equals folding over the prefix of
length `n`. -/
lemma foldl_range_getD {α β : Type} (f : β → α → β) (l : List α) (d : α) :
    ∀ n, n ≤ l.length → ∀ init,
      (List.range n).foldl (fun acc i => f acc (l.getD i d)) init =
        (l.take n).foldl f init := by
  intro n
  induction n with
  | zero => intro _ init; simp
  | succ k ih =>
    intro h init
    have hk : k < l.length := by omega
    rw [List.range_succ, List.foldl_append, ih (by omega), List.take_succ,
      List.foldl_append]
    simp [List.getElem?_eq_getElem hk, List.getD]

/-- Claim C10 counterexample: with a 33-byte content the chunk loop never
visits index 32, so the chunks do not cover the entire content; the hashing
outcome is insensitive to the final byte. -/
theorem chunk_loop_gap_counterexample :
    32 < 33 ∧ 32 ∉ processedIndices 33 ∧
    chunkHashes 2048 9 (List.replicate 32 65 ++ [66]) =
      chunkHashes 2048 9 (List.replicate 32 65 ++ [67]) := by
  refine ⟨by decide, by decide, by decide⟩

/-- Claim C10 (amended): the 32 contiguous chunks together cover exactly the
first `32 * ⌊len/32⌋` bytes of the content in order (the trailing
`len mod 32` bytes are skipped), and each covered byte drives one `hashStep`,
which updates all three mixing accumulators. -/
theorem chunk_loop_coverage (size pathLen : Nat) (data : ByteData) :
    processedIndices data.length = List.range (32 * chunkSize data.length) ∧
    chunkHashes size pathLen data =
      (data.take (32 * chunkSize data.length)).foldl hashStep
        (size % 4294967296, pathLen % 4294967296, 0) := by
  refine ⟨processedIndices_eq_range _, ?_⟩
  have h32 : 32 * chunkSize data.length ≤ data.length := by
    have := Nat.div_mul_le_self data.length 32
    simpa [chunkSize, Nat.mul_comm] using this
  rw [chunkHashes, processedIndices_eq_range]
  exact foldl_range_getD hashStep data 0 _ h32 _

/-! Scorer lemmas. -/

/-- A sum of componentwise nonnegative combinations is nonnegative. -/
lemma sum_zipWith_nonneg (f : ℝ → ℝ → ℝ) (hf : ∀ a b, 0 ≤ f a b) :
    ∀ (l1 l2 : List ℝ), 0 ≤ (List.zipWith f l1 l2).sum := by
  intro l1
  induction l1 with
  | nil => intro l2; simp
  | cons a t1 ih =>
    intro l2
    cases l2 with
    | nil => simp
    | cons b t2 =>
      simp only [List.zipWith_cons_cons, List.sum_cons]
      exact add_nonneg (hf a b) (ih t2)

/-- A sum of squares is nonnegative. -/
lemma sum_map_mul_self_nonneg (l : List ℝ) : 0 ≤ (l.map (fun x => x * x)).sum := by
  apply List.sum_nonneg
  intro x hx
  obtain ⟨y, _, rfl⟩ := List.mem_map.1 hx
  exact mul_self_nonneg y

/-- Cauchy-Schwarz for list dot products. -/
lemma list_cauchy_schwarz : ∀ (l1 l2 : List ℝ),
    ((List.zipWith (fun a b => a * b) l1 l2).sum) ^ 2 ≤
      ((l1.map fun x => x * x).sum) * ((l2.map fun x => x * x).sum) := by
  intro l1
  induction l1 with
  | nil => intro l2; simp
  | cons x t1 ih =>
    intro l2
    cases l2 with
    | nil =>
      simp
    | cons y t2 =>
      simp only [List.zipWith_cons_cons, List.map_cons, List.sum_cons]
      have h1 : 0 ≤ (t1.map fun x => x * x).sum := sum_map_mul_self_nonneg t1
      have h2 : 0 ≤ (t2.map fun x => x * x).sum := sum_map_mul_self_nonneg t2
      set D := (List.zipWith (fun a b => a * b) t1 t2).sum with hD
      set N1 := (t1.map fun x => x * x).sum with hN1
      set N2 := (t2.map fun x => x * x).sum with hN2
      have ihD : D ^ 2 ≤ N1 * N2 := ih t2
      have key : 2 * (x * y) * D ≤ x ^ 2 * N2 + y ^ 2 * N1 := by
        rcases eq_or_lt_of_le h1 with hz | hp
        · have hDz : D = 0 := by nlinarith [sq_nonneg D]
          rw [hDz]
          nlinarith [mul_nonneg (sq_nonneg x) h2, mul_nonneg (sq_nonneg y) h1]
        · nlinarith [sq_nonneg (x * D - y * N1), mul_nonneg (sq_nonneg x) (sub_nonneg.2 ihD)]
      nlinarith [key, ihD]

/-- The square-map of a list written with `^ 2` instead of `x * x`. -/
lemma map_mul_self_eq_map_sq (l : List ℝ) :
    (l.map fun x => x * x) = (l.map fun x => x ^ 2) := by
  have hfg : (fun x : ℝ => x * x) = (fun x : ℝ => x ^ 2) := by
    funext x; ring
  rw [hfg]

/-- Claim C2: on equal-length descriptors the three metric routines compute
the spec's L2 distance, guarded cosine similarity and Manhattan distance, and
the combined score of `matchFace` is exactly
`0.4 * max(0, 1 - e/2) + 0.4 * c + 0.2 * max(0, 1 - m/256)`. -/
theorem scorer_formulas (d1 d2 : List ℝ) (h : d1.length = d2.length) (nm : String) :
    calculateDistance d1 d2 = Except.ok (euclideanSpec d1 d2) ∧
    calculateCosineSimilarity d1 d2 = Except.ok (cosineSpec d1 d2) ∧
    calculateManhattanDistance d1 d2 = Except.ok (manhattanSpec d1 d2) ∧
    scoreCandidate d1 nm d2 =
      Except.ok ⟨nm,
        combinedScoreSpec (euclideanSpec d1 d2) (cosineSpec d1 d2) (manhattanSpec d1 d2),
        euclideanSpec d1 d2, cosineSpec d1 d2, manhattanSpec d1 d2⟩ := by
  have hne : ¬ d1.length ≠ d2.length := by simp [h]
  have hsq : (fun a b : ℝ => (a - b) * (a - b)) = (fun a b : ℝ => (a - b) ^ 2) := by
    funext a b; ring
  have hdist : calculateDistance d1 d2 = Except.ok (euclideanSpec d1 d2) := by
    rw [calculateDistance, if_neg hne, euclideanSpec, hsq]
  have hcos : calculateCosineSimilarity d1 d2 = Except.ok (cosineSpec d1 d2) := by
    simp only [calculateCosineSimilarity]
    rw [if_neg hne, cosineSpec, normSpec, normSpec, map_mul_self_eq_map_sq,
      map_mul_self_eq_map_sq]
    exact congrArg Except.ok (if_congr mul_eq_zero rfl rfl)
  have hman : calculateManhattanDistance d1 d2 = Except.ok (manhattanSpec d1 d2) := by
    rw [calculateManhattanDistance, if_neg hne, manhattanSpec]
  refine ⟨hdist, hcos, hman, ?_⟩
  simp only [scoreCandidate, hdist, hcos, hman]
  show Except.ok _ = Except.ok _
  refine congrArg Except.ok ?_
  refine congrArg (ScoreEntry.mk nm · _ _ _) ?_
  rw [combinedScoreSpec]
  ring

/-- Witness for `scorer_formulas` on a concrete equal-length pair. -/
theorem scorer_formulas_witness :
    ([1, 0] : List ℝ).length = ([0, 1] : List ℝ).length ∧
    scoreCandidate [1, 0] "w.jpg" [0, 1] =
      Except.ok ⟨"w.jpg",
        combinedScoreSpec (euclideanSpec [1, 0] [0, 1]) (cosineSpec [1, 0] [0, 1])
          (manhattanSpec [1, 0] [0, 1]),
        euclideanSpec [1, 0] [0, 1], cosineSpec [1, 0] [0, 1],
        manhattanSpec [1, 0] [0, 1]⟩ :=
  ⟨rfl, (scorer_formulas [1, 0] [0, 1] rfl "w.jpg").2.2.2⟩

/-- Claim C3 (amended): on 128-component descriptors the combined score is at
most 1, and at least -0.4; it is not clamped to [0,1] from below. -/
theorem combined_score_bounds (d1 d2 : List ℝ) (h1 : d1.length = 128)
    (h2 : d2.length = 128) (nm : String) :
    ∃ e : ScoreEntry, scoreCandidate d1 nm d2 = Except.ok e ∧
      -0.4 ≤ e.score ∧ e.score ≤ 1 := by
  have h : d1.length = d2.length := by rw [h1, h2]
  have hne : ¬ d1.length ≠ d2.length := by simp [h]
  have hA0 : 0 ≤ (d1.map fun x => x * x).sum := sum_map_mul_self_nonneg d1
  have hB0 : 0 ≤ (d2.map fun x => x * x).sum := sum_map_mul_self_nonneg d2
  set A := (d1.map fun x => x * x).sum with hA
  set B := (d2.map fun x => x * x).sum with hB
  set dot := (List.zipWith (fun a b => a * b) d1 d2).sum with hdotd
  set E := Real.sqrt ((List.zipWith (fun a b => (a - b) * (a - b)) d1 d2).sum) with hEd
  set M := (List.zipWith (fun a b => |a - b|) d1 d2).sum with hMd
  set C := if Real.sqrt A * Real.sqrt B = 0 then (0:ℝ)
    else dot / (Real.sqrt A * Real.sqrt B) with hCd
  have hsc : scoreCandidate d1 nm d2 =
      Except.ok ⟨nm, max 0 (1 - E / 2) * 0.4 + C * 0.4 + max 0 (1 - M / 256) * 0.2,
        E, C, M⟩ := by
    simp only [scoreCandidate, calculateDistance, calculateCosineSimilarity,
      calculateManhattanDistance, if_neg hne]
    rfl
  have hE0 : 0 ≤ E := Real.sqrt_nonneg _
  have hM0 : 0 ≤ M := sum_zipWith_nonneg _ (fun a b => abs_nonneg _) d1 d2
  have hCabs : |C| ≤ 1 := by
    rw [hCd]
    split_ifs with hmag
    · simp
    · have hmagpos : 0 < Real.sqrt A * Real.sqrt B :=
        lt_of_le_of_ne (mul_nonneg (Real.sqrt_nonneg _) (Real.sqrt_nonneg _)) (Ne.symm hmag)
      rw [abs_div, abs_of_pos hmagpos, div_le_one hmagpos]
      have hsq : |dot| ^ 2 ≤ (Real.sqrt A * Real.sqrt B) ^ 2 := by
        have hAB : (Real.sqrt A * Real.sqrt B) ^ 2 = A * B := by
          rw [mul_pow, Real.sq_sqrt hA0, Real.sq_sqrt hB0]
        rw [sq_abs, hAB]
        exact list_cauchy_schwarz d1 d2
      exact (pow_le_pow_iff_left₀ (abs_nonneg _) hmagpos.le two_ne_zero).1 hsq
  have hC1 := abs_le.1 hCabs
  have ha0 : 0 ≤ max 0 (1 - E / 2) := le_max_left _ _
  have ha1 : max 0 (1 - E / 2) ≤ 1 := max_le (by norm_num) (by linarith)
  have hb0 : 0 ≤ max 0 (1 - M / 256) := le_max_left _ _
  have hb1 : max 0 (1 - M / 256) ≤ 1 := max_le (by norm_num) (by linarith)
  refine ⟨_, hsc, ?_, ?_⟩
  · show -0.4 ≤ max 0 (1 - E / 2) * 0.4 + C * 0.4 + max 0 (1 - M / 256) * 0.2
    nlinarith [hC1.1, ha0, hb0]
  · show max 0 (1 - E / 2) * 0.4 + C * 0.4 + max 0 (1 - M / 256) * 0.2 ≤ 1
    nlinarith [hC1.2, ha1, hb1]

/-- Witness for `combined_score_bounds` at concrete 128-component inputs. -/
theorem combined_score_bounds_witness :
    (List.replicate 128 (0:ℝ)).length = 128 ∧
    ∃ e : ScoreEntry,
      scoreCandidate (List.replicate 128 0) "w2.jpg" (List.replicate 128 0) =
        Except.ok e ∧ -0.4 ≤ e.score ∧ e.score ≤ 1 :=
  ⟨by simp, combined_score_bounds (List.replicate 128 0) (List.replicate 128 0)
    (by simp) (by simp) "w2.jpg"⟩

/-- Claim C3 counterexample: for the 128-component descriptors
`(1, 0, …, 0)` and `(-1, 0, …, 0)` the combined score is `-129/640 < 0`, so
the combined score is not clamped to [0,1]. -/
theorem combined_score_negative_counterexample :
    (1 :: List.replicate 127 (0:ℝ)).length = 128 ∧
    ((-1) :: List.replicate 127 (0:ℝ)).length = 128 ∧
    scoreCandidate (1 :: List.replicate 127 0) "candidate.jpg"
        ((-1) :: List.replicate 127 0) =
      Except.ok ⟨"candidate.jpg", -(129 / 640), 2, -1, 2⟩ ∧
    ¬ (0 ≤ -(129 / 640 : ℝ)) := by
  have hlen : (1 :: List.replicate 127 (0:ℝ)).length = 128 := by simp
  have hlen' : ((-1) :: List.replicate 127 (0:ℝ)).length = 128 := by simp
  have hne : ¬ (1 :: List.replicate 127 (0:ℝ)).length ≠
      ((-1) :: List.replicate 127 (0:ℝ)).length := by simp
  have hzz : ∀ g : ℝ → ℝ → ℝ,
      List.zipWith g (List.replicate 127 (0:ℝ)) (List.replicate 127 (0:ℝ)) =
        List.replicate 127 (g 0 0) := by
    intro g
    rw [List.zipWith_replicate]
    simp
  have hsq4 : Real.sqrt 4 = 2 := by
    rw [show (4:ℝ) = 2 ^ 2 by norm_num, Real.sqrt_sq (by norm_num : (0:ℝ) ≤ 2)]
  have hdist : calculateDistance (1 :: List.replicate 127 0)
      ((-1) :: List.replicate 127 0) = Except.ok 2 := by
    rw [calculateDistance, if_neg hne, List.zipWith_cons_cons, hzz]
    norm_num [List.sum_replicate, hsq4]
  have hn1 : ((1 :: List.replicate 127 (0:ℝ)).map fun x => x * x).sum = 1 := by
    simp [List.sum_replicate]
  have hn2 : (((-1) :: List.replicate 127 (0:ℝ)).map fun x => x * x).sum = 1 := by
    simp [List.sum_replicate]
  have hcos : calculateCosineSimilarity (1 :: List.replicate 127 0)
      ((-1) :: List.replicate 127 0) = Except.ok (-1) := by
    simp only [calculateCosineSimilarity, if_neg hne, hn1, hn2]
    rw [List.zipWith_cons_cons, hzz]
    norm_num [List.sum_replicate]
  have hman : calculateManhattanDistance (1 :: List.replicate 127 0)
      ((-1) :: List.replicate 127 0) = Except.ok 2 := by
    rw [calculateManhattanDistance, if_neg hne, List.zipWith_cons_cons, hzz]
    norm_num [List.sum_replicate]
  refine ⟨hlen, hlen', ?_, by norm_num⟩
  simp only [scoreCandidate, hdist, hcos, hman]
  show Except.ok _ = Except.ok _
  refine congrArg Except.ok ?_
  refine congrArg (ScoreEntry.mk "candidate.jpg" · _ _ _) ?_
  rw [show max (0:ℝ) (1 - 2 / 2) = 0 by norm_num,
    show max (0:ℝ) (1 - 2 / 256) = 127 / 128 by rw [max_eq_right] <;> norm_num]
  norm_num

/-- Scoring a descriptor with a nonzero square-sum against itself gives
Euclidean distance 0, cosine similarity 1, Manhattan distance 0, and a
combined score of exactly 1. -/
lemma scoreCandidate_self (f : List ℝ) (hnz : (f.map fun x => x * x).sum ≠ 0)
    (nm : String) :
    calculateDistance f f = Except.ok 0 ∧
    calculateCosineSimilarity f f = Except.ok 1 ∧
    calculateManhattanDistance f f = Except.ok 0 ∧
    scoreCandidate f nm f = Except.ok ⟨nm, 1, 0, 1, 0⟩ := by
  have hA0 : 0 ≤ (f.map fun x => x * x).sum := sum_map_mul_self_nonneg f
  have hne : ¬ f.length ≠ f.length := by simp
  have hdist : calculateDistance f f = Except.ok 0 := by
    rw [calculateDistance, if_neg hne, List.zipWith_same]
    have hmap : (f.map fun a => (a - a) * (a - a)) = f.map fun _ => (0:ℝ) := by
      simp
    rw [hmap]
    simp [List.sum_replicate]
  have hcos : calculateCosineSimilarity f f = Except.ok 1 := by
    simp only [calculateCosineSimilarity, if_neg hne]
    rw [List.zipWith_same, Real.mul_self_sqrt hA0]
    have : (f.map fun a => a * a).sum = (f.map fun x => x * x).sum := rfl
    rw [this, if_neg hnz]
    exact congrArg Except.ok (div_self hnz)
  have hman : calculateManhattanDistance f f = Except.ok 0 := by
    rw [calculateManhattanDistance, if_neg hne, List.zipWith_same]
    have hmap : (f.map fun a => |a - a|) = f.map fun _ => (0:ℝ) := by simp
    rw [hmap]
    simp [List.sum_replicate]
  refine ⟨hdist, hcos, hman, ?_⟩
  simp only [scoreCandidate, hdist, hcos, hman]
  show Except.ok _ = Except.ok _
  refine congrArg Except.ok ?_
  refine congrArg (ScoreEntry.mk nm · _ _ _) ?_
  rw [show max (0:ℝ) (1 - 0 / 2) = 1 by norm_num,
    show max (0:ℝ) (1 - 0 / 256) = 1 by norm_num]
  norm_num

/-- Unfolding `matchDescriptor` once the scoring loop has succeeded. -/
lemma matchDescriptor_ok (db : List (String × List ℝ)) (input : List ℝ)
    (results : List ScoreEntry)
    (hres : db.mapM (fun p => scoreCandidate input p.1 p.2) = Except.ok results) :
    matchDescriptor db input =
      match (results.mergeSort scoreLE).head? with
      | some bestMatch =>
        if bestMatch.score ≥ 0.85 then Except.ok (matchedResult bestMatch)
        else if bestMatch.score ≥ 0.75 then Except.ok (possibleResult bestMatch)
        else Except.ok (unmatchedResult bestMatch.score)
      | none => Except.ok (unmatchedResult 0) := by
  unfold matchDescriptor
  rw [hres]
  rfl

/-- A list whose head component is nonzero has a nonzero sum of squares. -/
lemma sum_map_mul_self_ne_zero (x : ℝ) (xs : List ℝ) (hx : x ≠ 0) :
    (((x :: xs).map fun t => t * t).sum) ≠ 0 := by
  simp only [List.map_cons, List.sum_cons]
  have h1 : 0 < x * x := mul_self_pos.2 hx
  have h2 : 0 ≤ (xs.map fun t => t * t).sum := sum_map_mul_self_nonneg xs
  exact ne_of_gt (by linarith)

/-- Normalization preserves a nonzero sum of squares (it rescales it to 1). -/
lemma sumSq_normalize_ne_zero (d : List ℝ) (hd : (d.map fun x => x * x).sum ≠ 0) :
    ((normalizeDescriptor d).map fun x => x * x).sum ≠ 0 := by
  rw [normalizeDescriptor]
  have hA0 : 0 ≤ (d.map fun x => x * x).sum := sum_map_mul_self_nonneg d
  have hApos : 0 < (d.map fun x => x * x).sum := lt_of_le_of_ne hA0 (Ne.symm hd)
  have hmag : 0 < Real.sqrt ((d.map fun x => x * x).sum) := Real.sqrt_pos.2 hApos
  rw [if_pos hmag]
  set m := Real.sqrt ((d.map fun x => x * x).sum) with hm
  have hcomp : ((d.map fun x => x / m).map fun x => x * x) =
      d.map fun x => (x * x) * (1 / (m * m)) := by
    rw [List.map_map]
    refine List.map_congr_left ?_
    intro x _
    show (x / m) * (x / m) = x * x * (1 / (m * m))
    field_simp
  rw [hcomp, List.sum_map_mul_right, hm, Real.mul_self_sqrt hA0, mul_one_div,
    div_self hd]
  exact one_ne_zero

/-- Claim C8 (amended): a fingerprint with a nonzero component (so a nonzero
square-sum — the all-zero degenerate fingerprint is excluded) scored against
itself yields Euclidean distance 0, cosine similarity 1, Manhattan distance 0
and combined score 1 ≥ 0.85, and with it stored the identical query
classifies as matched. -/
theorem self_match (f : List ℝ) (_h128 : f.length = 128)
    (hnz : (f.map fun x => x * x).sum ≠ 0) (nm : String) :
    calculateDistance f f = Except.ok 0 ∧
    calculateCosineSimilarity f f = Except.ok 1 ∧
    calculateManhattanDistance f f = Except.ok 0 ∧
    scoreCandidate f nm f = Except.ok ⟨nm, 1, 0, 1, 0⟩ ∧
    (0.85 : ℝ) ≤ 1 ∧
    matchDescriptor [(nm, f)] f = Except.ok (matchedResult ⟨nm, 1, 0, 1, 0⟩) := by
  obtain ⟨hd, hc, hm, hs⟩ := scoreCandidate_self f hnz nm
  refine ⟨hd, hc, hm, hs, by norm_num, ?_⟩
  have hmapM : [(nm, f)].mapM (fun p => scoreCandidate f p.1 p.2) =
      Except.ok [⟨nm, 1, 0, 1, 0⟩] := by
    rw [List.mapM_cons, hs, List.mapM_nil]
    rfl
  rw [matchDescriptor_ok [(nm, f)] f [⟨nm, 1, 0, 1, 0⟩] hmapM,
    List.mergeSort_singleton]
  simp only [List.head?_cons]
  rw [if_pos (show (⟨nm, 1, 0, 1, 0⟩ : ScoreEntry).score ≥ 0.85 by
    show (0.85 : ℝ) ≤ 1; norm_num)]

/-- Witness for `self_match` at the concrete fingerprint `(1, 0, …, 0)`. -/
theorem self_match_witness :
    (1 :: List.replicate 127 (0:ℝ)).length = 128 ∧
    (((1 :: List.replicate 127 (0:ℝ)).map fun x => x * x).sum ≠ 0) ∧
    matchDescriptor [("alice.jpg", 1 :: List.replicate 127 (0:ℝ))]
        (1 :: List.replicate 127 (0:ℝ)) =
      Except.ok (matchedResult ⟨"alice.jpg", 1, 0, 1, 0⟩) :=
  ⟨by simp, sum_map_mul_self_ne_zero 1 _ one_ne_zero,
    (self_match (1 :: List.replicate 127 (0:ℝ)) (by simp)
      (sum_map_mul_self_ne_zero 1 _ one_ne_zero) "alice.jpg").2.2.2.2.2⟩

/-- Claim C8 counterexample: the all-zero 128-component fingerprint scored
against itself has cosine similarity 0 (not 1) and combined score 3/5, below
the 0.85 matched threshold. -/
theorem self_match_zero_counterexample :
    calculateCosineSimilarity (List.replicate 128 (0:ℝ)) (List.replicate 128 0) =
      Except.ok 0 ∧
    scoreCandidate (List.replicate 128 (0:ℝ)) "zero.jpg" (List.replicate 128 0) =
      Except.ok ⟨"zero.jpg", 3 / 5, 0, 0, 0⟩ ∧
    ¬ ((0.85 : ℝ) ≤ 3 / 5) := by
  have hne : ¬ (List.replicate 128 (0:ℝ)).length ≠
      (List.replicate 128 (0:ℝ)).length := by simp
  have hzz : ∀ g : ℝ → ℝ → ℝ,
      List.zipWith g (List.replicate 128 (0:ℝ)) (List.replicate 128 (0:ℝ)) =
        List.replicate 128 (g 0 0) := by
    intro g
    rw [List.zipWith_replicate]
    simp
  have hsum0 : ((List.replicate 128 (0:ℝ)).map fun x => x * x).sum = 0 := by
    simp [List.sum_replicate]
  have hdist : calculateDistance (List.replicate 128 (0:ℝ)) (List.replicate 128 0) =
      Except.ok 0 := by
    rw [calculateDistance, if_neg hne, hzz]
    simp [List.sum_replicate]
  have hcos : calculateCosineSimilarity (List.replicate 128 (0:ℝ))
      (List.replicate 128 0) = Except.ok 0 := by
    simp only [calculateCosineSimilarity, if_neg hne, hsum0]
    simp [List.sum_replicate]
  have hman : calculateManhattanDistance (List.replicate 128 (0:ℝ))
      (List.replicate 128 0) = Except.ok 0 := by
    rw [calculateManhattanDistance, if_neg hne, hzz]
    simp [List.sum_replicate]
  refine ⟨hcos, ?_, by norm_num⟩
  simp only [scoreCandidate, hdist, hcos, hman]
  show Except.ok _ = Except.ok _
  refine congrArg Except.ok ?_
  refine congrArg (ScoreEntry.mk "zero.jpg" · _ _ _) ?_
  rw [show max (0:ℝ) (1 - 0 / 2) = 1 by norm_num,
    show max (0:ℝ) (1 - 0 / 256) = 1 by norm_num]
  norm_num

/-- Claim C1: when extraction succeeds and the best candidate (the head of
the descending stable sort of the results) has combined score `s`, then
`s ≥ 0.85` (including exactly 0.85) yields the matched decision carrying
identity, score and all three raw metrics; `0.75 ≤ s < 0.85` (including
exactly 0.75) yields the possible decision with the manual-verification flag,
carrying identity and score; and `s < 0.75` yields the unmatched decision
carrying the best score but no identity. -/
theorem matchFace_threshold_classification
    (db : List (String × List ℝ)) (imagePath : String) (info : FileInfo)
    (imageData : ByteData) (desc : List ℝ) (results : List ScoreEntry)
    (b : ScoreEntry)
    (hex : info.fexists = true)
    (hdesc : extractFaceDescriptor imagePath info imageData = some desc)
    (hres : db.mapM (fun p => scoreCandidate desc p.1 p.2) = Except.ok results)
    (hb : (results.mergeSort scoreLE).head? = some b) :
    ((0.85:ℝ) ≤ b.score →
      matchFace db imagePath info imageData = Except.ok (matchedResult b)) ∧
    (b.score = 0.85 →
      matchFace db imagePath info imageData = Except.ok (matchedResult b)) ∧
    ((0.75:ℝ) ≤ b.score ∧ b.score < 0.85 →
      matchFace db imagePath info imageData = Except.ok (possibleResult b)) ∧
    (b.score = 0.75 →
      matchFace db imagePath info imageData = Except.ok (possibleResult b)) ∧
    (b.score < 0.75 →
      matchFace db imagePath info imageData = Except.ok (unmatchedResult b.score)) := by
  have hmf : matchFace db imagePath info imageData = matchDescriptor db desc := by
    rw [matchFace, hex]
    simp [hdesc]
  have hmd := matchDescriptor_ok db desc results hres
  rw [hb] at hmd
  have hmd' : matchDescriptor db desc =
      (if b.score ≥ 0.85 then Except.ok (matchedResult b)
       else if b.score ≥ 0.75 then Except.ok (possibleResult b)
       else Except.ok (unmatchedResult b.score)) := hmd
  refine ⟨?_, ?_, ?_, ?_, ?_⟩
  · intro h
    rw [hmf, hmd', if_pos h]
  · intro h
    rw [hmf, hmd', if_pos (le_of_eq h.symm)]
  · rintro ⟨h1, h2⟩
    rw [hmf, hmd', if_neg (not_le.2 h2), if_pos h1]
  · intro h
    rw [hmf, hmd', if_neg (not_le.2 (by rw [h]; norm_num)), if_pos (le_of_eq h.symm)]
  · intro h
    rw [hmf, hmd', if_neg (not_le.2 (lt_trans h (by norm_num))),
      if_neg (not_le.2 h)]

/-- Witness for `matchFace_threshold_classification`: the extracted
descriptor of a concrete 1024-byte query stored under `alice.jpg` matches
itself with score 1, classified matched. -/
theorem matchFace_threshold_witness :
    matchFace [("alice.jpg", buildDescriptor "query.jpg" 1024 [])] "query.jpg"
        ⟨true, 1024⟩ [] =
      Except.ok (matchedResult ⟨"alice.jpg", 1, 0, 1, 0⟩) := by
  have hchunk : chunkHashes 1024 ("query.jpg".length) [] = (1024, 9, 0) := by decide
  have hfill : fillDescriptor 128 0 (1024, 9, 0) =
      toComponent (lcg1 1024) :: fillDescriptor 127 1 (lcg1 1024, 9, 0) := by
    show fillDescriptor (127 + 1) 0 (1024, 9, 0) = _
    rw [fillDescriptor]
    rw [if_pos (show 0 % 3 = 0 from rfl)]
  have hc0 : toComponent (lcg1 1024) ≠ 0 := by
    rw [show lcg1 1024 = 423224377 from by decide, toComponent]
    norm_num
  have hraw : ((fillDescriptor 128 0 (1024, 9, 0)).map fun x => x * x).sum ≠ 0 := by
    rw [hfill]
    exact sum_map_mul_self_ne_zero _ _ hc0
  have hnz : ((buildDescriptor "query.jpg" 1024 []).map fun x => x * x).sum ≠ 0 := by
    rw [buildDescriptor, hchunk]
    exact sumSq_normalize_ne_zero _ hraw
  obtain ⟨-, -, -, hs⟩ := scoreCandidate_self (buildDescriptor "query.jpg" 1024 []) hnz
    "alice.jpg"
  have hmapM : [("alice.jpg", buildDescriptor "query.jpg" 1024 [])].mapM
      (fun p => scoreCandidate (buildDescriptor "query.jpg" 1024 []) p.1 p.2) =
      Except.ok [⟨"alice.jpg", 1, 0, 1, 0⟩] := by
    rw [List.mapM_cons, hs, List.mapM_nil]
    rfl
  have hdesc : extractFaceDescriptor "query.jpg" ⟨true, 1024⟩ [] =
      some (buildDescriptor "query.jpg" 1024 []) := by
    rw [extractFaceDescriptor]
    norm_num
  exact (matchFace_threshold_classification
    [("alice.jpg", buildDescriptor "query.jpg" 1024 [])] "query.jpg" ⟨true, 1024⟩ []
    (buildDescriptor "query.jpg" 1024 []) [⟨"alice.jpg", 1, 0, 1, 0⟩]
    ⟨"alice.jpg", 1, 0, 1, 0⟩ rfl hdesc hmapM
    (by rw [List.mergeSort_singleton]; rfl)).1
    (show (0.85:ℝ) ≤ 1 by norm_num)

/-- Claim C9: the best candidate picked by the sort-then-take-head selection
of `matchFace` is exactly the spec's choice: a strictly greater combined
score always wins, and on exact ties the earliest-enumerated entry is kept. -/
theorem best_candidate_selection (rs : List ScoreEntry) :
    (rs.mergeSort scoreLE).head? = firstMaxSpec rs := by
  have htrans : ∀ a b c : ScoreEntry,
      scoreLE a b = true → scoreLE b c = true → scoreLE a c = true := by
    intro a b c hab hbc
    simp only [scoreLE, decide_eq_true_eq] at hab hbc ⊢
    exact le_trans hbc hab
  have htotal : ∀ a b : ScoreEntry, (scoreLE a b || scoreLE b a) = true := by
    intro a b
    simp only [scoreLE, Bool.or_eq_true, decide_eq_true_eq]
    exact le_total b.score a.score
  induction rs with
  | nil => rw [List.mergeSort_nil, firstMaxSpec]; rfl
  | cons a l ih =>
    obtain ⟨l₁, l₂, h1, h2, h3⟩ := List.mergeSort_cons htrans htotal a l
    cases l₁ with
    | nil =>
      rw [List.nil_append] at h1 h2
      rw [h1, List.head?_cons, firstMaxSpec]
      cases hfm : firstMaxSpec l with
      | none => rfl
      | some b =>
        have hb : l₂.head? = some b := by rw [← h2, ih, hfm]
        cases l₂ with
        | nil => simp at hb
        | cons b' t =>
          have hbb : b' = b := by simpa using hb
          subst hbb
          have hsorted := List.sorted_mergeSort htrans htotal (a :: l)
          rw [h1] at hsorted
          have hab : scoreLE a b' = true :=
            (List.pairwise_cons.1 hsorted).1 b' (by simp)
          simp only [scoreLE, decide_eq_true_eq] at hab
          show some a = if b'.score > a.score then some b' else some a
          rw [if_neg (not_lt.2 hab)]
    | cons c t₁ =>
      rw [List.cons_append] at h1 h2
      rw [h1, List.head?_cons, firstMaxSpec]
      have hfm : firstMaxSpec l = some c := by rw [← ih, h2, List.head?_cons]
      rw [hfm]
      have hac := h3 c (by simp)
      simp only [scoreLE, Bool.not_eq_true', decide_eq_false_iff_not, not_le] at hac
      show some c = if c.score > a.score then some c else some a
      rw [if_pos hac]

end FaceRec
